import Mathlib

/-!
Shallow embedding of the traffic-capture middleware of the
`caddy-reverse-proxy` repository (Go), together with theorems about the
properties its specification states.

The embedding follows the richer of the two source variants
(`src/unnamed/part_000`); the relevant Go declarations are `formatJSON`,
`decompressBody`, `isJSON`, `logRequest`, `responseWriter` (with its
`WriteHeader` and `Write` methods) and the configuration logic of `main`.

Modelling conventions:
- Go byte slices and strings are modelled as Lean `String`s (sequences of
  characters); Go `int` is `Int`; a Go `error` value is `Option String`
  (`none` is `nil`).
- The underlying `http.ResponseWriter` that the capturing writer wraps is
  external to the repository, so it is kept abstract: a `UWriter σ` is an
  arbitrary implementation over an arbitrary state type `σ`.  The concrete
  instance `clientWriter` records exactly the bytes and status codes that
  reach the client.
- The gzip codec (`compress/gzip` plus `io.ReadAll`) is Go standard
  library, not repository code; `decompressBody` therefore takes the
  decoder as an explicit parameter `gunzip`, a function from the raw bytes
  to either the fully decompressed bytes or a decode error.
- `json.Indent` from `encoding/json` is re-implemented executably
  (`goIndent`): it validates the payload against the JSON grammar the Go
  scanner accepts and re-emits it with two-space indentation, newlines
  after `,` and after an opening bracket, and `: ` after object keys,
  exactly as `json.Indent(dst, src, "", "  ")` does.
-/

namespace RevProxy

/-! ## String helpers (Go `strings.Contains`, `strings.ToLower`) -/

/-- Does the character list `s` begin with the character list `p`? -/
def charsBeginWith : List Char → List Char → Bool
  | _, [] => true
  | [], _ :: _ => false
  | a :: s, b :: p => a == b && charsBeginWith s p

/-- Does the character list `s` contain `p` as a contiguous run? -/
def charsContain : List Char → List Char → Bool
  | [], p => p.isEmpty
  | a :: t, p => charsBeginWith (a :: t) p || charsContain t p

/-- Go `strings.Contains s sub`. -/
def strContains (s sub : String) : Bool :=
  charsContain s.toList sub.toList

/-- Go `strings.ToLower` (header values here are ASCII, and `Char.toLower`
performs the ASCII case mapping). -/
def strToLower (s : String) : String :=
  String.mk (s.toList.map Char.toLower)

/-! ## The capturing response writer (`responseWriter` in part_000)

```go
type responseWriter struct {
    http.ResponseWriter
    statusCode int
    body       *bytes.Buffer
    writerUsed bool
}
```
-/

/-- Abstract behaviour of the wrapped `http.ResponseWriter`: `doWrite`
consumes bytes and returns the byte count and error of the Go `Write`
call; `doWriteHeader` consumes a status code. -/
structure UWriter (σ : Type) where
  doWrite : σ → String → σ × Int × Option String
  doWriteHeader : σ → Int → σ

/-- State of one `responseWriter` value: the wrapped writer (behaviour `u`
and its current state `us`), the recorded status code, the accumulation
buffer, and the first-write flag. -/
structure responseWriter (σ : Type) where
  u : UWriter σ
  us : σ
  statusCode : Int
  body : String
  writerUsed : Bool

/-- Go `http.StatusOK`. -/
def StatusOK : Int := 200

/-- `func (rw *responseWriter) WriteHeader(statusCode int)`:
records the code only while `statusCode == 0`, and always forwards the
call to the wrapped writer. -/
def responseWriter.WriteHeader {σ : Type} (rw : responseWriter σ)
    (statusCode : Int) : responseWriter σ :=
  { u := rw.u
    us := rw.u.doWriteHeader rw.us statusCode
    statusCode := if rw.statusCode = 0 then statusCode else rw.statusCode
    body := rw.body
    writerUsed := rw.writerUsed }

/-- `func (rw *responseWriter) Write(b []byte) (int, error)`:
on the first call, records `http.StatusOK` if no status was recorded yet;
appends `b` to the buffer; forwards `b` to the wrapped writer and returns
that writer's byte count and error. -/
def responseWriter.Write {σ : Type} (rw : responseWriter σ) (b : String) :
    responseWriter σ × Int × Option String :=
  ({ u := rw.u
     us := (rw.u.doWrite rw.us b).1
     statusCode :=
       if rw.writerUsed then rw.statusCode
       else if rw.statusCode = 0 then StatusOK else rw.statusCode
     body := rw.body ++ b
     writerUsed := true },
   (rw.u.doWrite rw.us b).2)

/-- One call the wrapped handler can make on the capturing writer. -/
inductive SinkOp where
  | write (b : String)
  | setStatus (c : Int)

/-- Run a sequence of handler calls against a capturing writer. -/
def runOps {σ : Type} (rw : responseWriter σ) : List SinkOp → responseWriter σ
  | [] => rw
  | SinkOp.write b :: t => runOps (responseWriter.Write rw b).1 t
  | SinkOp.setStatus c :: t => runOps (responseWriter.WriteHeader rw c) t

/-- The bytes a sequence of calls hands to the writer, in order. -/
def opsBytes : List SinkOp → String
  | [] => ""
  | SinkOp.write b :: t => b ++ opsBytes t
  | SinkOp.setStatus _ :: t => opsBytes t

/-- The status codes a sequence of calls sets, in order. -/
def opsCodes : List SinkOp → List Int
  | [] => []
  | SinkOp.write _ :: t => opsCodes t
  | SinkOp.setStatus c :: t => c :: opsCodes t

/-- Canonical wrapped writer: it delivers every byte and forwards every
status line to the client, returning the byte count and a nil error, as
the real connection does on success. -/
structure Client where
  sent : String
  statusSent : List Int

/-- Behaviour of the canonical client-facing writer. -/
def clientWriter : UWriter Client where
  doWrite := fun cs b =>
    ({ sent := cs.sent ++ b, statusSent := cs.statusSent }, (b.length : Int), none)
  doWriteHeader := fun cs c =>
    { sent := cs.sent, statusSent := cs.statusSent ++ [c] }

/-- A fresh capturing writer over a given wrapped writer, as built at the
start of `logRequest`: empty buffer, `statusCode: 0`, flag unset. -/
def freshSink {σ : Type} (u : UWriter σ) (s0 : σ) : responseWriter σ :=
  { u := u, us := s0, statusCode := 0, body := "", writerUsed := false }

/-- The capturing writer `logRequest` builds around the client connection. -/
def clientInit : responseWriter Client :=
  freshSink clientWriter { sent := "", statusSent := [] }

/-! ### Helper lemmas about the writer -/

theorem strAppend_def (a b : List Char) :
    String.mk a ++ String.mk b = String.mk (a ++ b) := rfl

theorem strAppend_assoc (a b c : String) : a ++ b ++ c = a ++ (b ++ c) := by
  cases a; cases b; cases c
  simp [strAppend_def, List.append_assoc]

theorem strAppend_empty (a : String) : a ++ "" = a := by
  cases a; simp [strAppend_def]

theorem strEmpty_append (a : String) : "" ++ a = a := by
  cases a; simp [strAppend_def]

theorem runOps_u {σ : Type} (rw : responseWriter σ) (ops : List SinkOp) :
    (runOps rw ops).u = rw.u := by
  induction ops generalizing rw with
  | nil => rfl
  | cons op t ih =>
    cases op with
    | write b => simpa [runOps, responseWriter.Write] using ih _
    | setStatus c => simpa [runOps, responseWriter.WriteHeader] using ih _

theorem Write_statusCode {σ : Type} (rw : responseWriter σ) (b : String) :
    ((responseWriter.Write rw b).1).statusCode =
      if rw.writerUsed then rw.statusCode
      else if rw.statusCode = 0 then StatusOK else rw.statusCode := rfl

/-- A nonzero recorded status code is never changed by later calls. -/
theorem runOps_status_ne {σ : Type} (rw : responseWriter σ)
    (h : rw.statusCode ≠ 0) (ops : List SinkOp) :
    (runOps rw ops).statusCode = rw.statusCode := by
  induction ops generalizing rw with
  | nil => rfl
  | cons op t ih =>
    cases op with
    | write b =>
      have hs : ((responseWriter.Write rw b).1).statusCode = rw.statusCode := by
        rw [Write_statusCode]
        by_cases hw : rw.writerUsed <;> simp [hw, h]
      rw [runOps, ih _ (by rw [hs]; exact h), hs]
    | setStatus c =>
      have hs : (responseWriter.WriteHeader rw c).statusCode = rw.statusCode := by
        simp [responseWriter.WriteHeader, h]
      rw [runOps, ih _ (by rw [hs]; exact h), hs]

/-- Running calls against a writer wrapping the canonical client: the
buffer and the client both accumulate exactly the written bytes, and the
client receives every status code set. -/
theorem runOps_client (rw : responseWriter Client) (h : rw.u = clientWriter)
    (ops : List SinkOp) :
    (runOps rw ops).body = rw.body ++ opsBytes ops ∧
    (runOps rw ops).us.sent = rw.us.sent ++ opsBytes ops ∧
    (runOps rw ops).us.statusSent = rw.us.statusSent ++ opsCodes ops := by
  induction ops generalizing rw with
  | nil => simp [runOps, opsBytes, opsCodes, strAppend_empty]
  | cons op t ih =>
    cases op with
    | write b =>
      have hu : ((responseWriter.Write rw b).1).u = clientWriter := by
        simpa [responseWriter.Write] using h
      have := ih (responseWriter.Write rw b).1 hu
      rw [runOps]
      refine ⟨?_, ?_, ?_⟩
      · rw [this.1]
        show rw.body ++ b ++ opsBytes t = _
        rw [strAppend_assoc]; rfl
      · rw [this.2.1]
        show ((rw.u.doWrite rw.us b).1).sent ++ opsBytes t = _
        rw [h]
        show rw.us.sent ++ b ++ opsBytes t = _
        rw [strAppend_assoc]; rfl
      · rw [this.2.2]
        show ((rw.u.doWrite rw.us b).1).statusSent ++ opsCodes t = _
        rw [h]; rfl
    | setStatus c =>
      have hu : (responseWriter.WriteHeader rw c).u = clientWriter := by
        simpa [responseWriter.WriteHeader] using h
      have := ih (responseWriter.WriteHeader rw c) hu
      rw [runOps]
      refine ⟨?_, ?_, ?_⟩
      · rw [this.1]; rfl
      · rw [this.2.1]
        show (rw.u.doWriteHeader rw.us c).sent ++ opsBytes t = _
        rw [h]; rfl
      · rw [this.2.2]
        show (rw.u.doWriteHeader rw.us c).statusSent ++ opsCodes t = _
        rw [h]
        show rw.us.statusSent ++ [c] ++ opsCodes t = _
        rw [List.append_assoc]; rfl

/-! ### C1, C2, C3 -/

/-- C1: each `Write` call appends exactly the given bytes to the buffer,
hands exactly those bytes to the wrapped writer, and returns exactly the
byte count and error the wrapped writer returns; consequently, over any
sequence of calls against the client-facing writer, the buffer equals the
concatenation of all written bytes and is byte-identical to what the
client received. -/
theorem write_capture_spec :
    (∀ (σ : Type) (rw : responseWriter σ) (b : String),
        ((responseWriter.Write rw b).1).body = rw.body ++ b ∧
        ((responseWriter.Write rw b).1).us = (rw.u.doWrite rw.us b).1 ∧
        (responseWriter.Write rw b).2 = (rw.u.doWrite rw.us b).2) ∧
    (∀ ops : List SinkOp,
        (runOps clientInit ops).body = opsBytes ops ∧
        (runOps clientInit ops).us.sent = opsBytes ops ∧
        (runOps clientInit ops).body = (runOps clientInit ops).us.sent) :=
  ⟨fun _ _ _ => ⟨rfl, rfl, rfl⟩,
   fun ops => by
    have h := runOps_client clientInit rfl ops
    have h1 : (runOps clientInit ops).body = opsBytes ops := by
      have := h.1
      rwa [show clientInit.body = "" from rfl, strEmpty_append] at this
    have h2 : (runOps clientInit ops).us.sent = opsBytes ops := by
      have := h.2.1
      rwa [show clientInit.us.sent = "" from rfl, strEmpty_append] at this
    exact ⟨h1, h2, by rw [h1, h2]⟩⟩

/-- C2 counterexample: the code uses `statusCode == 0` as the "nothing
recorded yet" test, so after `WriteHeader 0` a later `WriteHeader 404`
still overwrites the recorded status — the first call's code (0) is not
what remains recorded, contradicting the claim as stated. -/
theorem setStatus_zero_cex :
    (runOps clientInit [SinkOp.setStatus 0, SinkOp.setStatus 404]).statusCode = 404 ∧
    (404 : Int) ≠ 0 := by
  constructor
  · rfl
  · decide

/-- C2 (amended): provided the first `setStatus` call carries a nonzero
code — every valid HTTP status code is nonzero — only that first code is
recorded, later calls leave the recorded status unchanged, and every
call, first or later, is still forwarded to the wrapped writer. -/
theorem setStatus_first_nonzero_wins (c : Int) (cs : List Int) (hc : c ≠ 0) :
    (runOps clientInit ((c :: cs).map SinkOp.setStatus)).statusCode = c ∧
    (runOps clientInit ((c :: cs).map SinkOp.setStatus)).us.statusSent = c :: cs := by
  have step1 : runOps clientInit ((c :: cs).map SinkOp.setStatus) =
      runOps (responseWriter.WriteHeader clientInit c) (cs.map SinkOp.setStatus) := rfl
  have hsc : (responseWriter.WriteHeader clientInit c).statusCode = c := by
    simp [responseWriter.WriteHeader, clientInit, freshSink]
  constructor
  · rw [step1, runOps_status_ne _ (by rw [hsc]; exact hc), hsc]
  · rw [step1]
    have hcl := runOps_client (responseWriter.WriteHeader clientInit c)
      (by simp [responseWriter.WriteHeader, runOps_u, clientInit, freshSink])
      (cs.map SinkOp.setStatus)
    rw [hcl.2.2]
    show ([] : List Int) ++ [c] ++ opsCodes (cs.map SinkOp.setStatus) = c :: cs
    have hco : ∀ l : List Int, opsCodes (l.map SinkOp.setStatus) = l := by
      intro l
      induction l with
      | nil => rfl
      | cons x xs ih => simp [opsCodes, ih]
    rw [hco]; rfl

/-- C2 witness: first call 200 (nonzero), second call 404; 200 stays
recorded while both 200 and 404 are forwarded to the client. -/
theorem setStatus_first_nonzero_wins_witness :
    (runOps clientInit ([200, 404].map SinkOp.setStatus)).statusCode = 200 ∧
    (runOps clientInit ([200, 404].map SinkOp.setStatus)).us.statusSent = [200, 404] :=
  setStatus_first_nonzero_wins 200 [404] (by decide)

/-- C3: a `Write` on a writer with no recorded status (and no earlier
write) records `http.StatusOK` (200), and no subsequent calls of any kind
can change the recorded value. -/
theorem write_records_default_ok {σ : Type} (rw : responseWriter σ)
    (b : String) (h0 : rw.statusCode = 0) (hw : rw.writerUsed = false)
    (ops : List SinkOp) :
    ((responseWriter.Write rw b).1).statusCode = StatusOK ∧
    (runOps ((responseWriter.Write rw b).1) ops).statusCode = StatusOK := by
  have hs : ((responseWriter.Write rw b).1).statusCode = StatusOK := by
    rw [Write_statusCode, hw, h0]; simp
  exact ⟨hs, by rw [runOps_status_ne _ (by rw [hs]; decide), hs]⟩

/-- C3 witness: on the fresh capturing writer, writing `"a"` records 200,
and a later `setStatus 404` does not change it. -/
theorem write_records_default_ok_witness :
    clientInit.statusCode = 0 ∧ clientInit.writerUsed = false ∧
    ((responseWriter.Write clientInit "a").1).statusCode = StatusOK ∧
    (runOps ((responseWriter.Write clientInit "a").1)
      [SinkOp.setStatus 404]).statusCode = StatusOK :=
  ⟨rfl, rfl, write_records_default_ok clientInit "a" rfl rfl [SinkOp.setStatus 404]⟩

/-! ## Content Decoder (`decompressBody` in part_000)

```go
func decompressBody(body []byte, encoding string) ([]byte, error) {
    if strings.Contains(strings.ToLower(encoding), "gzip") {
        reader, err := gzip.NewReader(bytes.NewReader(body))
        if err != nil { return nil, err }
        defer reader.Close()
        return io.ReadAll(reader)
    }
    return body, nil
}
```

The gzip codec itself is the Go standard library; it is the `gunzip`
parameter, which returns either the full decompression of the payload or
a decode error (covering both the `gzip.NewReader` error and the
`io.ReadAll` error of the source). -/

/-- Go `decompressBody`, with the stdlib gzip codec abstracted as
`gunzip`. -/
def decompressBody (gunzip : String → Except String String)
    (body : String) (encoding : String) : Except String String :=
  if strContains (strToLower encoding) "gzip" then gunzip body
  else Except.ok body

/-! ## Body Formatter (`formatJSON` / `isJSON` in part_000)

`formatJSON` calls `json.Indent(&prettyJSON, data, "", "  ")` and falls
back to the raw text when that errors.  `goIndent` below is an executable
re-implementation of `json.Indent` with those arguments: it validates the
input against the grammar the Go JSON scanner accepts (values are
objects, arrays, strings with the scanner's escape rules, numbers with
the scanner's number grammar, `true`, `false`, `null`; whitespace is
space, tab, CR, LF; nothing may follow the top-level value) and re-emits
it with all inter-token whitespace removed, each object member and array
element on a fresh line indented two spaces per depth, `: ` after keys,
and empty containers kept on one line. -/

/-- JSON inter-token whitespace (the Go scanner's `isSpace`). -/
def isWS (c : Char) : Bool :=
  c == ' ' || c == '\t' || c == '\n' || c == '\r'

/-- Drop leading JSON whitespace. -/
def skipWS : List Char → List Char
  | [] => []
  | c :: t => if isWS c then skipWS t else c :: t

/-- ASCII decimal digit. -/
def isDigit (c : Char) : Bool := '0' ≤ c && c ≤ '9'

/-- ASCII hexadecimal digit (for `\u` escapes). -/
def isHex (c : Char) : Bool :=
  isDigit c || ('a' ≤ c && c ≤ 'f') || ('A' ≤ c && c ≤ 'F')

/-- Split off a maximal run of digits. -/
def takeDigits : List Char → List Char × List Char
  | [] => ([], [])
  | c :: t =>
    if isDigit c then
      ((takeDigits t).1.cons c, (takeDigits t).2)
    else ([], c :: t)

/-- Lex the body of a JSON string after the opening quote, validating the
scanner's escape rules; returns the lexeme (closing quote included) and
the rest of the input. -/
def lexStrBody : List Char → Option (List Char × List Char)
  | [] => none
  | '"' :: t => some (['"'], t)
  | '\\' :: 'u' :: h1 :: h2 :: h3 :: h4 :: v =>
    if isHex h1 && isHex h2 && isHex h3 && isHex h4 then
      (lexStrBody v).map (fun p => ('\\' :: 'u' :: h1 :: h2 :: h3 :: h4 :: p.1, p.2))
    else none
  | '\\' :: e :: u =>
    if e == 'b' || e == 'f' || e == 'n' || e == 'r' || e == 't' ||
       e == '\\' || e == '/' || e == '"' then
      (lexStrBody u).map (fun p => ('\\' :: e :: p.1, p.2))
    else none
  | c :: t =>
    if c.toNat < 32 then none
    else (lexStrBody t).map (fun p => (c :: p.1, p.2))

/-- Exponent part of the scanner's number grammar (optional). -/
def lexExp (acc : List Char) (s : List Char) : Option (List Char × List Char) :=
  match s with
  | c :: t =>
    if c == 'e' || c == 'E' then
      match t with
      | '+' :: u =>
        (match u with
         | d :: v => if isDigit d then some (acc ++ c :: '+' :: d :: (takeDigits v).1, (takeDigits v).2) else none
         | [] => none)
      | '-' :: u =>
        (match u with
         | d :: v => if isDigit d then some (acc ++ c :: '-' :: d :: (takeDigits v).1, (takeDigits v).2) else none
         | [] => none)
      | d :: v => if isDigit d then some (acc ++ c :: d :: (takeDigits v).1, (takeDigits v).2) else none
      | [] => none
    else some (acc, c :: t)
  | [] => some (acc, [])

/-- Fractional part of the scanner's number grammar (optional), then the
exponent part. -/
def lexFrac (acc : List Char) (s : List Char) : Option (List Char × List Char) :=
  match s with
  | '.' :: t =>
    (match t with
     | d :: v => if isDigit d then lexExp (acc ++ '.' :: d :: (takeDigits v).1) (takeDigits v).2 else none
     | [] => none)
  | _ => lexExp acc s

/-- Lex a JSON number lexeme (the scanner's grammar: optional minus, `0`
or a nonzero-led digit run, optional fraction, optional exponent). -/
def lexNumber (s : List Char) : Option (List Char × List Char) :=
  match s with
  | '-' :: s1 =>
    (match s1 with
     | '0' :: t => lexFrac ['-', '0'] t
     | c :: t => if isDigit c then lexFrac ('-' :: c :: (takeDigits t).1) (takeDigits t).2 else none
     | [] => none)
  | '0' :: t => lexFrac ['0'] t
  | c :: t => if isDigit c then lexFrac (c :: (takeDigits t).1) (takeDigits t).2 else none
  | [] => none

/-- Consume an expected literal tail (`rue`, `alse`, `ull`). -/
def dropLit : List Char → List Char → Option (List Char)
  | [], s => some s
  | c :: cs, d :: t => if c == d then dropLit cs t else none
  | _ :: _, [] => none

/-- The newline plus indentation `json.Indent(dst, src, "", "  ")` emits
before an element at the given depth. -/
def nlIndent (depth : Nat) : String :=
  "\n" ++ String.join (List.replicate depth "  ")

/-- Mode of the indenting scan: a value at a depth, the member loop of an
object, or the element loop of an array (each with the output built so
far for that container). -/
inductive PMode where
  | val (depth : Nat)
  | members (depth : Nat) (acc : String)
  | items (depth : Nat) (acc : String)

/-- Fueled indenting scan; every recursive call consumes input, so fuel
`2 * length + 2` never runs out on accepted inputs. -/
def jrun : Nat → PMode → List Char → Option (String × List Char)
  | 0, _, _ => none
  | Nat.succ fuel, PMode.val depth, s =>
    (match skipWS s with
     | [] => none
     | c :: t =>
       if c == '{' then
         match skipWS t with
         | '}' :: r => some ("\x7b\x7d", r)
         | t2 => jrun fuel (PMode.members depth "\x7b") t2
       else if c == '[' then
         match skipWS t with
         | ']' :: r => some ("[]", r)
         | t2 => jrun fuel (PMode.items depth "[") t2
       else if c == '"' then
         (lexStrBody t).map (fun p => (String.mk ('"' :: p.1), p.2))
       else if c == '-' || isDigit c then
         (lexNumber (c :: t)).map (fun p => (String.mk p.1, p.2))
       else if c == 't' then
         (dropLit ['r', 'u', 'e'] t).map (fun r => ("true", r))
       else if c == 'f' then
         (dropLit ['a', 'l', 's', 'e'] t).map (fun r => ("false", r))
       else if c == 'n' then
         (dropLit ['u', 'l', 'l'] t).map (fun r => ("null", r))
       else none)
  | Nat.succ fuel, PMode.members depth acc, s =>
    (match s with
     | '"' :: t =>
       (match lexStrBody t with
        | some kp =>
          (match skipWS kp.2 with
           | ':' :: r2 =>
             (match jrun fuel (PMode.val (depth + 1)) r2 with
              | some vp =>
                (match skipWS vp.2 with
                 | ',' :: r4 =>
                   jrun fuel (PMode.members depth
                     (acc ++ nlIndent (depth + 1) ++ String.mk ('"' :: kp.1) ++ ": " ++ vp.1 ++ ","))
                     (skipWS r4)
                 | '}' :: r4 =>
                   some (acc ++ nlIndent (depth + 1) ++ String.mk ('"' :: kp.1) ++ ": " ++ vp.1 ++
                     nlIndent depth ++ "\x7d", r4)
                 | _ => none)
              | none => none)
           | _ => none)
        | none => none)
     | _ => none)
  | Nat.succ fuel, PMode.items depth acc, s =>
    (match jrun fuel (PMode.val (depth + 1)) s with
     | some vp =>
       (match skipWS vp.2 with
        | ',' :: r2 => jrun fuel (PMode.items depth (acc ++ nlIndent (depth + 1) ++ vp.1 ++ ",")) r2
        | ']' :: r2 => some (acc ++ nlIndent (depth + 1) ++ vp.1 ++ nlIndent depth ++ "]", r2)
        | _ => none)
     | none => none)

/-- `json.Indent(dst, src, "", "  ")`: `some` of the indented form when
`src` is valid JSON (with only whitespace after the top-level value),
`none` when the scanner would report an error. -/
def goIndent (data : String) : Option String :=
  match jrun (2 * data.length + 2) (PMode.val 0) data.toList with
  | some p => if (skipWS p.2).isEmpty then some p.1 else none
  | none => none

/-- Go `formatJSON`: the indented form, or the original text when
`json.Indent` errors. -/
def formatJSON (data : String) : String :=
  match goIndent data with
  | some s => s
  | none => data

/-- Go `isJSON`. -/
def isJSON (contentType : String) : Bool :=
  strContains (strToLower contentType) "application/json"

/-- The request/response body rendering of `logRequest`: the pretty JSON
form when the content type indicates JSON, the raw text otherwise
(part_000 lines 66-71 and 120-125). -/
def formatBody (data contentType : String) : String :=
  if isJSON contentType then formatJSON data else data

/-! ### C5, C6 -/

/-- C5: when the encoding header case-insensitively contains "gzip",
`decompressBody` returns exactly what the gzip decoder returns — the full
decompression on a valid stream, the decode error on an invalid one; when
the header does not indicate gzip, the payload is returned unchanged with
a nil error. -/
theorem decompressBody_spec (gunzip : String → Except String String)
    (body encoding : String) :
    (strContains (strToLower encoding) "gzip" = true →
      decompressBody gunzip body encoding = gunzip body ∧
      (∀ d, gunzip body = Except.ok d →
        decompressBody gunzip body encoding = Except.ok d) ∧
      (∀ e, gunzip body = Except.error e →
        decompressBody gunzip body encoding = Except.error e)) ∧
    (strContains (strToLower encoding) "gzip" = false →
      decompressBody gunzip body encoding = Except.ok body) := by
  constructor
  · intro h
    refine ⟨by simp [decompressBody, h], ?_, ?_⟩
    · intro d hd; simp [decompressBody, h, hd]
    · intro e he; simp [decompressBody, h, he]
  · intro h
    simp [decompressBody, h]

/-- A gzip decoder that succeeds, for concrete instantiation. -/
def gzOk : String → Except String String := fun s => Except.ok ("D" ++ s)

/-- A gzip decoder that fails (corrupt stream), for concrete
instantiation. -/
def gzFail : String → Except String String :=
  fun _ => Except.error "gzip: invalid header"

/-- C5 witness: header "GZip" (case-insensitive match) decodes via the
decoder, a corrupt stream yields the decode error, and header "identity"
passes the payload through unchanged. -/
theorem decompressBody_spec_witness :
    strContains (strToLower "GZip") "gzip" = true ∧
    decompressBody gzOk "x" "GZip" = Except.ok "Dx" ∧
    decompressBody gzFail "x" "gzip" = Except.error "gzip: invalid header" ∧
    strContains (strToLower "identity") "gzip" = false ∧
    decompressBody gzOk "x" "identity" = Except.ok "x" :=
  ⟨by decide,
   ((decompressBody_spec gzOk "x" "GZip").1 (by decide)).2.1 "Dx" rfl,
   ((decompressBody_spec gzFail "x" "gzip").1 (by decide)).2.2
     "gzip: invalid header" rfl,
   by decide,
   (decompressBody_spec gzOk "x" "identity").2 (by decide)⟩

/-- C6: the body rendering is total (a Lean function); with a JSON
content type it returns the two-space-indented form whenever the payload
is JSON the scanner accepts and the raw text otherwise, and with a
non-JSON content type it always returns the raw text. -/
theorem formatBody_spec (data contentType : String) :
    (isJSON contentType = true →
      (∀ pretty, goIndent data = some pretty →
        formatBody data contentType = pretty) ∧
      (goIndent data = none → formatBody data contentType = data)) ∧
    (isJSON contentType = false → formatBody data contentType = data) := by
  constructor
  · intro h
    constructor
    · intro pretty hp
      simp [formatBody, h, formatJSON, hp]
    · intro hn
      simp [formatBody, h, formatJSON, hn]
  · intro h
    simp [formatBody, h]

/-- C6 witness: the three examples of the claim — valid JSON with a JSON
content type is pretty-printed with two-space indentation, `not json`
with a JSON content type falls back to the literal raw string, and a
`text/plain` body is returned raw. -/
theorem formatBody_spec_witness :
    isJSON "application/json" = true ∧
    goIndent "\x7b\"a\":1\x7d" = some "\x7b\n  \"a\": 1\n\x7d" ∧
    formatBody "\x7b\"a\":1\x7d" "application/json" = "\x7b\n  \"a\": 1\n\x7d" ∧
    goIndent "not json" = none ∧
    formatBody "not json" "application/json" = "not json" ∧
    isJSON "text/plain" = false ∧
    formatBody "\x7b\"a\":1\x7d" "text/plain" = "\x7b\"a\":1\x7d" :=
  ⟨by decide, by decide,
   ((formatBody_spec "\x7b\"a\":1\x7d" "application/json").1 (by decide)).1
     "\x7b\n  \"a\": 1\n\x7d" (by decide),
   by decide,
   ((formatBody_spec "not json" "application/json").1 (by decide)).2 (by decide),
   by decide,
   (formatBody_spec "\x7b\"a\":1\x7d" "text/plain").2 (by decide)⟩

/-! ## Exchange Logger (`logRequest` in part_000)

The middleware: capture and rebuffer the request body, run the wrapped
handler against a fresh capturing writer over the client connection, then
build the log record (the response body decoded via `decompressBody` when
a content-encoding is present, both bodies rendered by `formatBody`).
Timing (`time.Since`) is real time and is not modelled.  The response
headers come from `w.Header()`, the map the wrapped handler populated; the
handler is therefore modelled as returning its writer calls together with
the headers it set. -/

/-- The inbound `*http.Request` fields `logRequest` uses; `body` is
`none` for a nil `r.Body`. -/
structure Request where
  method : String
  url : String
  remote : String
  headers : List (String × String)
  body : Option String

/-- What the wrapped handler (the reverse proxy) does: its sequence of
calls on the response writer it is given, and the response headers it
sets on `w.Header()`. -/
structure HandlerResult where
  ops : List SinkOp
  respHeaders : List (String × String)

/-- `Header.Get`: first value for the key, `""` when absent (keys are
stored canonicalized in Go and are looked up here verbatim). -/
def headerGet (hs : List (String × String)) (key : String) : String :=
  match hs.find? (fun p => p.1 == key) with
  | some p => p.2
  | none => ""

/-- Lines 61-64 of part_000: `io.ReadAll(r.Body)` into `requestBody`,
then `r.Body = io.NopCloser(bytes.NewBuffer(requestBody))` — returns the
captured bytes and the request with the re-installed body. -/
def rebufferRequest (r : Request) : String × Request :=
  match r.body with
  | some bs => (bs, { r with body := some bs })
  | none => ("", r)

/-- The request-body log entry (lines 65-72): nothing when the body is
nil or empty, otherwise the `formatBody` rendering under the request's
Content-Type. -/
def reqBodyRender (body : Option String) (contentType : String) : Option String :=
  match body with
  | none => none
  | some bs => if 0 < bs.length then some (formatBody bs contentType) else none

/-- The response-body log entry (lines 104-126): nothing when the buffer
is empty; otherwise, when a content-encoding is present, the buffer is
decoded (on decode failure a warning is recorded and the raw buffer is
kept), and the result is rendered by `formatBody` under the response's
Content-Type.  Returns (decode-warning?, log entry). -/
def respBodyRender (gunzip : String → Except String String)
    (body contentType contentEncoding : String) : Bool × Option String :=
  if 0 < body.length then
    let pr : String × Bool :=
      if contentEncoding ≠ "" then
        match decompressBody gunzip body contentEncoding with
        | Except.ok d => (d, false)
        | Except.error _ => (body, true)
      else (body, false)
    (pr.2, some (formatBody pr.1 contentType))
  else (false, none)

/-- The capturing writer state after the wrapped handler ran: a fresh
sink over the client connection, fed the handler's calls on the
rebuffered request. -/
def sinkAfter (handler : Request → HandlerResult) (r : Request) :
    responseWriter Client :=
  runOps clientInit (handler (rebufferRequest r).2).ops

/-- The response headers after the wrapped handler ran. -/
def respHeadersAfter (handler : Request → HandlerResult) (r : Request) :
    List (String × String) :=
  (handler (rebufferRequest r).2).respHeaders

/-- One emitted log record: everything `logRequest` prints for one
exchange (duration omitted: real time). -/
structure LogRecord where
  method : String
  url : String
  remote : String
  reqHeaders : List (String × String)
  reqBody : Option String
  status : Int
  respHeaders : List (String × String)
  decompressFailed : Bool
  respBody : Option String

/-- Go `logRequest` (part_000 lines 44-130) as a pure function from the
gzip decoder, the wrapped handler and the inbound request to the emitted
log record and the final client connection state. -/
def logRequest (gunzip : String → Except String String)
    (handler : Request → HandlerResult) (r : Request) : LogRecord × Client :=
  ({ method := r.method
     url := r.url
     remote := r.remote
     reqHeaders := r.headers
     reqBody := reqBodyRender r.body (headerGet r.headers "Content-Type")
     status := (sinkAfter handler r).statusCode
     respHeaders := respHeadersAfter handler r
     decompressFailed :=
       (respBodyRender gunzip (sinkAfter handler r).body
         (headerGet (respHeadersAfter handler r) "Content-Type")
         (headerGet (respHeadersAfter handler r) "Content-Encoding")).1
     respBody :=
       (respBodyRender gunzip (sinkAfter handler r).body
         (headerGet (respHeadersAfter handler r) "Content-Type")
         (headerGet (respHeadersAfter handler r) "Content-Encoding")).2 },
   (sinkAfter handler r).us)

/-! ## Startup configuration (`main` in part_000)

`os.Getenv` returns `""` for an absent variable, so the environment is a
total function to strings with absence encoded as `""`.  `url.Parse` is
Go standard library and is abstracted as `parseURL`. -/

/-- The immutable process configuration `main` derives. -/
structure Config where
  target : String
  port : String

/-- The configuration logic of `main` (part_000 lines 175-189): a fatal
error when `FORWARD_URL` is absent, a fatal error when the target fails
to parse, and the default port "80" when `PORT` is absent. -/
def mainStartup (env : String → String)
    (parseURL : String → Except String Unit) : Except String Config :=
  if env "FORWARD_URL" = "" then
    Except.error "FORWARD_URL environment variable is required"
  else
    match parseURL (env "FORWARD_URL") with
    | Except.error e => Except.error e
    | Except.ok _ =>
      Except.ok
        { target := env "FORWARD_URL"
          port := if env "PORT" = "" then "80" else env "PORT" }

/-! ### C4, C7, C8, C9, C10 -/

/-- C4: when the inbound body is present, the capture step reads exactly
its bytes, re-installs a body holding exactly those bytes, and the
wrapped handler therefore consumes a request whose body is byte-identical
to what arrived — running `logRequest` is the same as running it with the
handler already applied to the rebuffered request. -/
theorem capture_transparent (r : Request) (bs : String) (h : r.body = some bs) :
    (rebufferRequest r).1 = bs ∧
    (rebufferRequest r).2.body = some bs ∧
    (∀ (gunzip : String → Except String String) (handler : Request → HandlerResult),
      logRequest gunzip handler r =
        logRequest gunzip (fun _ => handler { r with body := some bs }) r) := by
  have hr : rebufferRequest r = (bs, { r with body := some bs }) := by
    simp [rebufferRequest, h]
  refine ⟨by rw [hr], by rw [hr], ?_⟩
  intro gunzip handler
  simp [logRequest, sinkAfter, respHeadersAfter, hr]

/-- A concrete JSON POST request. -/
def reqW : Request :=
  { method := "POST", url := "/items", remote := "client:1",
    headers := [("Content-Type", "application/json")],
    body := some "\x7b\"x\":1\x7d" }

/-- C4 witness: capturing the concrete POST body leaves it byte-identical
for the wrapped handler. -/
theorem capture_transparent_witness :
    reqW.body = some "\x7b\"x\":1\x7d" ∧
    (rebufferRequest reqW).1 = "\x7b\"x\":1\x7d" ∧
    (rebufferRequest reqW).2.body = some "\x7b\"x\":1\x7d" :=
  ⟨rfl, (capture_transparent reqW "\x7b\"x\":1\x7d" rfl).1,
   (capture_transparent reqW "\x7b\"x\":1\x7d" rfl).2.1⟩

/-- C7: when the response carries a gzip content-encoding but the
captured bytes fail to decode, the log records the decode warning and
formats the original undecoded bytes; the logged status is the sink's
recorded status, the client state is exactly what the handler's calls
produced, and the client state does not depend on the decoder at all. -/
theorem decode_failure_recovered (gz : String → Except String String)
    (handler : Request → HandlerResult) (r : Request) (e : String)
    (hlen : 0 < (sinkAfter handler r).body.length)
    (hgz : strContains (strToLower
      (headerGet (respHeadersAfter handler r) "Content-Encoding")) "gzip" = true)
    (herr : gz (sinkAfter handler r).body = Except.error e) :
    (logRequest gz handler r).1.decompressFailed = true ∧
    (logRequest gz handler r).1.respBody =
      some (formatBody (sinkAfter handler r).body
        (headerGet (respHeadersAfter handler r) "Content-Type")) ∧
    (logRequest gz handler r).1.status = (sinkAfter handler r).statusCode ∧
    (logRequest gz handler r).2 = (sinkAfter handler r).us ∧
    (∀ gz' : String → Except String String,
      (logRequest gz handler r).2 = (logRequest gz' handler r).2) := by
  have hne : headerGet (respHeadersAfter handler r) "Content-Encoding" ≠ "" := by
    intro hce
    rw [hce] at hgz
    exact absurd hgz (by decide)
  have hdec : decompressBody gz (sinkAfter handler r).body
      (headerGet (respHeadersAfter handler r) "Content-Encoding") =
      Except.error e := by
    simp [decompressBody, hgz, herr]
  have hrb : respBodyRender gz (sinkAfter handler r).body
      (headerGet (respHeadersAfter handler r) "Content-Type")
      (headerGet (respHeadersAfter handler r) "Content-Encoding") =
      (true, some (formatBody (sinkAfter handler r).body
        (headerGet (respHeadersAfter handler r) "Content-Type"))) := by
    simp [respBodyRender, hlen, hne, hdec]
  refine ⟨?_, ?_, rfl, rfl, fun _ => rfl⟩
  · show (respBodyRender gz (sinkAfter handler r).body
      (headerGet (respHeadersAfter handler r) "Content-Type")
      (headerGet (respHeadersAfter handler r) "Content-Encoding")).1 = true
    rw [hrb]
  · show (respBodyRender gz (sinkAfter handler r).body
      (headerGet (respHeadersAfter handler r) "Content-Type")
      (headerGet (respHeadersAfter handler r) "Content-Encoding")).2 = _
    rw [hrb]

/-- A handler that sets status 201, writes `"x"` and declares a gzip
content-encoding. -/
def hdlW : Request → HandlerResult := fun _ =>
  { ops := [SinkOp.setStatus 201, SinkOp.write "x"],
    respHeaders := [("Content-Encoding", "gzip")] }

/-- A body-less GET request. -/
def reqPlain : Request :=
  { method := "GET", url := "/", remote := "client:2",
    headers := [], body := none }

/-- C7 witness: a gzip-labelled response body `"x"` that the decoder
rejects is logged raw with the warning flag, and the client still gets
exactly the handler's bytes and status. -/
theorem decode_failure_recovered_witness :
    0 < (sinkAfter hdlW reqPlain).body.length ∧
    (logRequest gzFail hdlW reqPlain).1.decompressFailed = true ∧
    (logRequest gzFail hdlW reqPlain).1.respBody =
      some (formatBody (sinkAfter hdlW reqPlain).body
        (headerGet (respHeadersAfter hdlW reqPlain) "Content-Type")) ∧
    (logRequest gzFail hdlW reqPlain).1.status =
      (sinkAfter hdlW reqPlain).statusCode ∧
    (logRequest gzFail hdlW reqPlain).2 = (sinkAfter hdlW reqPlain).us :=
  ⟨by decide,
   (decode_failure_recovered gzFail hdlW reqPlain "gzip: invalid header"
     (by decide) (by decide) rfl).1,
   (decode_failure_recovered gzFail hdlW reqPlain "gzip: invalid header"
     (by decide) (by decide) rfl).2.1,
   (decode_failure_recovered gzFail hdlW reqPlain "gzip: invalid header"
     (by decide) (by decide) rfl).2.2.1,
   (decode_failure_recovered gzFail hdlW reqPlain "gzip: invalid header"
     (by decide) (by decide) rfl).2.2.2.1⟩

/-- Modelled from the spec (C8's reading of §4.4/§9, the "most complete
variant"): the captured request body is first passed through the Content
Decoder using the request's content-encoding header, then formatted by
the Body Formatter using the request's content-type.  The source under
`src/` never decodes the request side, so this definition exists only to
be compared against the code. -/
def specRequestLogBody (gunzip : String → Except String String)
    (body contentType contentEncoding : String) : String :=
  match decompressBody gunzip body contentEncoding with
  | Except.ok d => formatBody d contentType
  | Except.error _ => formatBody body contentType

/-- A handler that does nothing. -/
def hdl0 : Request → HandlerResult := fun _ => { ops := [], respHeaders := [] }

/-- A request whose body `"x"` is labelled gzip-encoded. -/
def reqC8 : Request :=
  { method := "POST", url := "/x", remote := "client:3",
    headers := [("Content-Type", "text/plain"), ("Content-Encoding", "gzip")],
    body := some "x" }

/-- C8 counterexample: with a decoder that turns `"x"` into `"Dx"`, the
claimed behaviour would log `"Dx"` for the gzip-labelled request body,
but the code logs the undecoded `"x"` — the request side is never passed
through the Content Decoder. -/
theorem request_not_decoded_cex :
    specRequestLogBody gzOk "x" "text/plain" "gzip" = "Dx" ∧
    (logRequest gzOk hdl0 reqC8).1.reqBody = some "x" ∧
    ("x" : String) ≠ "Dx" := by
  refine ⟨by decide, by decide, by decide⟩

/-- C8 (amended): only the response side is decoded; the captured request
body is rendered by the Body Formatter directly under the request's
content-type, without consulting the Content Decoder — the logged request
body is the formatted raw bytes and is independent of the decoder. -/
theorem request_body_not_decoded (gz gz' : String → Except String String)
    (handler : Request → HandlerResult) (r : Request) (bs : String)
    (hb : r.body = some bs) (hlen : 0 < bs.length) :
    (logRequest gz handler r).1.reqBody =
      some (formatBody bs (headerGet r.headers "Content-Type")) ∧
    (logRequest gz handler r).1.reqBody = (logRequest gz' handler r).1.reqBody := by
  constructor
  · show reqBodyRender r.body (headerGet r.headers "Content-Type") = _
    simp [reqBodyRender, hb, hlen]
  · rfl

/-- C8 witness: on the gzip-labelled request, the logged request body is
the raw formatted text and is the same under a succeeding and a failing
decoder. -/
theorem request_body_not_decoded_witness :
    reqC8.body = some "x" ∧ 0 < ("x" : String).length ∧
    (logRequest gzOk hdl0 reqC8).1.reqBody =
      some (formatBody "x" (headerGet reqC8.headers "Content-Type")) ∧
    (logRequest gzOk hdl0 reqC8).1.reqBody = (logRequest gzFail hdl0 reqC8).1.reqBody :=
  ⟨rfl, by decide,
   (request_body_not_decoded gzOk gzFail hdl0 reqC8 "x" rfl (by decide)).1,
   (request_body_not_decoded gzOk gzFail hdl0 reqC8 "x" rfl (by decide)).2⟩

/-- C9: an absent `FORWARD_URL` (the empty string, which is what
`os.Getenv` returns for an unset variable) is a fatal startup error
naming the cause, and an absent `PORT` defaults to port "80" once the
target is present and parses. -/
theorem startup_config (env : String → String)
    (parseURL : String → Except String Unit) :
    (env "FORWARD_URL" = "" →
      mainStartup env parseURL =
        Except.error "FORWARD_URL environment variable is required") ∧
    (env "FORWARD_URL" ≠ "" → parseURL (env "FORWARD_URL") = Except.ok () →
      env "PORT" = "" →
      mainStartup env parseURL =
        Except.ok { target := env "FORWARD_URL", port := "80" }) := by
  constructor
  · intro h
    simp [mainStartup, h]
  · intro h hp hport
    simp [mainStartup, h, hp, hport]

/-- An environment with no variables set. -/
def envNoUrl : String → String := fun _ => ""

/-- An environment with only `FORWARD_URL` set. -/
def envUrlOnly : String → String :=
  fun k => if k = "FORWARD_URL" then "http://upstream" else ""

/-- A URL parser that accepts everything. -/
def parseOK : String → Except String Unit := fun _ => Except.ok ()

/-- C9 witness: no `FORWARD_URL` refuses to start with the cause; with a
target but no `PORT`, the port defaults to "80". -/
theorem startup_config_witness :
    envNoUrl "FORWARD_URL" = "" ∧
    mainStartup envNoUrl parseOK =
      Except.error "FORWARD_URL environment variable is required" ∧
    envUrlOnly "FORWARD_URL" ≠ "" ∧ envUrlOnly "PORT" = "" ∧
    mainStartup envUrlOnly parseOK =
      Except.ok { target := envUrlOnly "FORWARD_URL", port := "80" } :=
  ⟨rfl, (startup_config envNoUrl parseOK).1 rfl, by decide, by decide,
   (startup_config envUrlOnly parseOK).2 (by decide) rfl (by decide)⟩

/-- C10: when the wrapped handler makes no write and no setStatus call,
the sink's recorded status stays at its zero initial value — the default
OK is recorded only on an actual first write — so the log records status
0 and no response body. -/
theorem silent_handler_status_zero (gz : String → Except String String)
    (r : Request) (hs : List (String × String)) :
    (logRequest gz (fun _ => { ops := [], respHeaders := hs }) r).1.status = 0 ∧
    (logRequest gz (fun _ => { ops := [], respHeaders := hs }) r).1.respBody = none :=
  ⟨rfl, rfl⟩

end RevProxy
